import Mathlib

/-!
Verification of the dev-notify library: a `Notification` (message, timestamp,
labeled context entries) is rendered to a Slack-markdown text, wrapped into a
JSON payload, and POSTed to a destination URL.

The definitions below embed `src/lib.rs`:
  * `Context.formatted`, `Notification.into_message`,
    `Notification.into_slack_message` embed the formatting functions;
  * the JSON value type, the serde-style map insertion (a BTreeMap keeps keys
    in ascending order) and the compact serializer embed what the reference
    encoder does when `into_slack_message` builds and stringifies the payload;
  * `Notification.send` embeds the dispatcher, with the HTTP transport passed
    in as an oracle and the list of issued requests returned explicitly.
-/

namespace DevNotify

/-- One labeled context entry attached to a notification. -/
structure Context where
  label : String
  value : String
deriving DecidableEq

/-- Render one context entry (Rust `Context::formatted`). -/
def Context.formatted (c : Context) : String :=
  ">`" ++ c.label ++ "`: " ++ c.value ++ "\n"

/-- The structured notification (Rust `Notification`). -/
structure Notification where
  message : String
  timestamp : String
  context : List Context
deriving DecidableEq

/-- Render the whole display text (Rust `Notification::into_message`): a
header line, a timestamp line, then each context entry appended in order. -/
def Notification.into_message (n : Notification) : String :=
  n.context.foldl (fun acc ctx => acc ++ ctx.formatted)
    ("`Issue`: " ++ n.message ++ "\n>`Timestamp`: _" ++ n.timestamp ++ "_\n")

/-- JSON values, as built by the reference encoder.  Numbers are kept as their
raw token text; the payload built by this library never contains one. -/
inductive Json where
  | str : String → Json
  | num : String → Json
  | bool : Bool → Json
  | null : Json
  | arr : List Json → Json
  | obj : List (String × Json) → Json

/-- Insert a key/value pair into an association list kept in strictly
ascending key order, replacing an existing binding — the behavior of the
BTreeMap backing the reference encoder's object type. -/
def objInsert (k : String) (v : Json) : List (String × Json) → List (String × Json)
  | [] => [(k, v)]
  | (k1, v1) :: rest =>
    if k < k1 then (k, v) :: (k1, v1) :: rest
    else if k = k1 then (k, v) :: rest
    else (k1, v1) :: objInsert k v rest

/-- Build a JSON object by inserting the written key/value pairs left to
right into an ordered map, as the reference `json!` macro does. -/
def mkObj (kvs : List (String × Json)) : Json :=
  Json.obj (kvs.foldl (fun m kv => objInsert kv.1 kv.2 m) [])

/-- Lower-case hexadecimal digit, as the reference encoder emits. -/
def hexDigitChar (n : Nat) : Char :=
  if n < 10 then Char.ofNat (48 + n) else Char.ofNat (87 + n)

/-- JSON string escaping of one character, exactly the reference encoder's
table: quote, backslash and the named control shorthands get two-character
escapes, every other control character below 0x20 becomes `\u00XX` with
lower-case hex, and everything else passes through verbatim. -/
def escapeChar (c : Char) : List Char :=
  if c = '"' then ['\\', '"']
  else if c = '\\' then ['\\', '\\']
  else if c = '\x08' then ['\\', 'b']
  else if c = '\t' then ['\\', 't']
  else if c = '\n' then ['\\', 'n']
  else if c = '\x0c' then ['\\', 'f']
  else if c = '\r' then ['\\', 'r']
  else if c.toNat < 32 then
    ['\\', 'u', '0', '0', hexDigitChar (c.toNat / 16), hexDigitChar (c.toNat % 16)]
  else [c]

/-- Escape every character of a string body. -/
def escapeChars : List Char → List Char
  | [] => []
  | c :: cs => escapeChar c ++ escapeChars cs

/-- JSON string escaping at the `String` level. -/
def escapeString (s : String) : String :=
  String.mk (escapeChars s.data)

mutual

/-- Compact JSON serialization (the reference `Value::to_string`): no
whitespace, object members as `"key":value` joined by commas. -/
def Json.render : Json → String
  | .str s => "\"" ++ escapeString s ++ "\""
  | .num s => s
  | .bool b => if b then "true" else "false"
  | .null => "null"
  | .arr xs => "[" ++ renderArr xs ++ "]"
  | .obj kvs => "\x7b" ++ renderObjBody kvs ++ "\x7d"

/-- Serialize array elements, comma separated. -/
def renderArr : List Json → String
  | [] => ""
  | [x] => x.render
  | x :: y :: rest => x.render ++ "," ++ renderArr (y :: rest)

/-- Serialize object members, comma separated. -/
def renderObjBody : List (String × Json) → String
  | [] => ""
  | [(k, v)] => "\"" ++ escapeString k ++ "\":" ++ v.render
  | (k, v) :: kv :: rest =>
    "\"" ++ escapeString k ++ "\":" ++ v.render ++ "," ++ renderObjBody (kv :: rest)

end

/-- Build the Slack payload (Rust `Notification::into_slack_message`): the
`json!` invocation writes `type` before `text` at both levels; the ordered
map reorders the keys, and the result is serialized compactly. -/
def Notification.into_slack_message (n : Notification) : String :=
  let message := n.into_message
  (mkObj [("blocks",
    Json.arr [mkObj [("type", Json.str "section"),
                     ("text", mkObj [("type", Json.str "mrkdwn"),
                                     ("text", Json.str message)])]])]).render

/-- An outbound HTTP request as the dispatcher assembles it. -/
structure Request where
  method : String
  url : String
  headers : List (String × String)
  body : String
deriving DecidableEq

/-- An HTTP response; the dispatcher never looks at the status code. -/
structure Response where
  status : Nat
deriving DecidableEq

/-- A transport-level failure (the error type of the HTTP client). -/
structure TransportError where
  detail : String
deriving DecidableEq

/-- Embed `Notification::send`: the HTTP layer is an oracle mapping a request
to a response or a transport error.  The result pairs the returned `Result`
with the list of requests actually issued, making the side effect explicit. -/
def Notification.send (n : Notification) (destination : String)
    (transport : Request → Except TransportError Response) :
    Except TransportError Unit × List Request :=
  let slack_message := n.into_slack_message
  let req : Request :=
    ⟨"POST", destination, [("Content-type", "application/json")], slack_message⟩
  match transport req with
  | .ok _ => (.ok (), [req])
  | .error e => (.error e, [req])

/-- JSON whitespace. -/
def isWs (c : Char) : Bool :=
  if c = ' ' ∨ c = '\t' ∨ c = '\n' ∨ c = '\r' then true else false

/-- Skip leading JSON whitespace. -/
def skipWs : List Char → List Char
  | [] => []
  | c :: cs => if isWs c then skipWs cs else c :: cs

/-- Numeric value of one hexadecimal digit. -/
def hexVal (c : Char) : Option Nat :=
  if 48 ≤ c.toNat ∧ c.toNat ≤ 57 then some (c.toNat - 48)
  else if 97 ≤ c.toNat ∧ c.toNat ≤ 102 then some (c.toNat - 87)
  else if 65 ≤ c.toNat ∧ c.toNat ≤ 70 then some (c.toNat - 55)
  else none

/-- Character that may occur in a JSON number token. -/
def isNumChar (c : Char) : Bool :=
  if ('0' ≤ c ∧ c ≤ '9') ∨ c = '-' ∨ c = '+' ∨ c = '.' ∨ c = 'e' ∨ c = 'E'
  then true else false

/-- Lex a maximal run of number-token characters. -/
def spanNum : List Char → List Char × List Char
  | [] => ([], [])
  | c :: cs =>
    if isNumChar c then
      let p := spanNum cs
      (c :: p.1, p.2)
    else ([], c :: cs)

/-- Decode four hexadecimal digits at the head of the input. -/
def hex4 : List Char → Option Nat
  | h1 :: h2 :: h3 :: h4 :: _ =>
    match hexVal h1, hexVal h2, hexVal h3, hexVal h4 with
    | some a, some b, some c2, some d => some (4096 * a + 256 * b + 16 * c2 + d)
    | _, _, _, _ => none
  | _ => none

/-- Decode the escape sequence that follows a backslash: the decoded
character and how many input characters the sequence occupies. -/
def unescapeHead : List Char → Option (Char × Nat)
  | [] => none
  | e :: cs2 =>
    if e = '"' then some ('"', 1)
    else if e = '\\' then some ('\\', 1)
    else if e = '/' then some ('/', 1)
    else if e = 'b' then some ('\x08', 1)
    else if e = 'f' then some ('\x0c', 1)
    else if e = 'n' then some ('\n', 1)
    else if e = 'r' then some ('\r', 1)
    else if e = 't' then some ('\t', 1)
    else if e = 'u' then
      match hex4 cs2 with
      | some n2 => some (Char.ofNat n2, 5)
      | none => none
    else none

/-- Parse the body of a JSON string after its opening quote, decoding the
standard escapes; returns the decoded characters and the input after the
closing quote. -/
def parseStringBody : List Char → Option (List Char × List Char)
  | [] => none
  | c :: cs =>
    if c = '"' then some ([], cs)
    else if c = '\\' then
      match unescapeHead cs with
      | some (ch, k) => (parseStringBody (cs.drop k)).map fun p => (ch :: p.1, p.2)
      | none => none
    else if c.toNat < 32 then none
    else (parseStringBody cs).map fun p => (c :: p.1, p.2)
termination_by cs => cs.length
decreasing_by
  · simp [List.length_drop]
    omega
  · simp

mutual

/-- Fueled recursive-descent parse of one JSON value. -/
def parseValue : Nat → List Char → Option (Json × List Char)
  | 0, _ => none
  | fuel + 1, cs =>
    match skipWs cs with
    | [] => none
    | c :: rest =>
      if c = '"' then
        match parseStringBody rest with
        | some (s, r) => some (.str (String.mk s), r)
        | none => none
      else if c = '\x7b' then
        match skipWs rest with
        | [] => none
        | c2 :: r2 =>
          if c2 = '\x7d' then some (.obj [], r2)
          else
            match parseMembers fuel (c2 :: r2) with
            | some (ms, r3) =>
              match skipWs r3 with
              | c3 :: r4 => if c3 = '\x7d' then some (.obj ms, r4) else none
              | [] => none
            | none => none
      else if c = '[' then
        match skipWs rest with
        | [] => none
        | c2 :: r2 =>
          if c2 = ']' then some (.arr [], r2)
          else
            match parseElems fuel (c2 :: r2) with
            | some (vs, r3) =>
              match skipWs r3 with
              | c3 :: r4 => if c3 = ']' then some (.arr vs, r4) else none
              | [] => none
            | none => none
      else if c = 't' then
        if rest.take 3 = ['r', 'u', 'e'] then some (.bool true, rest.drop 3) else none
      else if c = 'f' then
        if rest.take 4 = ['a', 'l', 's', 'e'] then some (.bool false, rest.drop 4) else none
      else if c = 'n' then
        if rest.take 3 = ['u', 'l', 'l'] then some (.null, rest.drop 3) else none
      else if c = '-' ∨ ('0' ≤ c ∧ c ≤ '9') then
        let p := spanNum (c :: rest)
        some (.num (String.mk p.1), p.2)
      else none

/-- Parse the comma-separated elements of a JSON array. -/
def parseElems : Nat → List Char → Option (List Json × List Char)
  | 0, _ => none
  | fuel + 1, cs =>
    match parseValue fuel cs with
    | some (v, r) =>
      match skipWs r with
      | c :: r2 =>
        if c = ',' then
          match parseElems fuel r2 with
          | some (vs, r3) => some (v :: vs, r3)
          | none => none
        else some ([v], c :: r2)
      | [] => some ([v], [])
    | none => none

/-- Parse the comma-separated members of a JSON object. -/
def parseMembers : Nat → List Char → Option (List (String × Json) × List Char)
  | 0, _ => none
  | fuel + 1, cs =>
    match skipWs cs with
    | [] => none
    | c :: rest =>
      if c = '"' then
        match parseStringBody rest with
        | some (k, r) =>
          match skipWs r with
          | c2 :: r2 =>
            if c2 = ':' then
              match parseValue fuel r2 with
              | some (v, r3) =>
                match skipWs r3 with
                | c3 :: r4 =>
                  if c3 = ',' then
                    match parseMembers fuel r4 with
                    | some (ms, r5) => some ((String.mk k, v) :: ms, r5)
                    | none => none
                  else some ([(String.mk k, v)], c3 :: r4)
                | [] => some ([(String.mk k, v)], [])
              | none => none
            else none
          | [] => none
        | none => none
      else none

end

/-- Parse a complete JSON document: one value with only trailing whitespace. -/
def Json.parse (s : String) : Option Json :=
  match parseValue (s.length + 1) s.data with
  | some (j, r) =>
    match skipWs r with
    | [] => some j
    | _ :: _ => none
  | none => none

/-- Look up a key in an association list of object members. -/
def lookupField : List (String × Json) → String → Option Json
  | [], _ => none
  | (k1, v) :: rest, k => if k = k1 then some v else lookupField rest k

/-- Field access on a parsed JSON object. -/
def Json.getField (j : Json) (k : String) : Option Json :=
  match j with
  | .obj kvs => lookupField kvs k
  | _ => none

/-- Index access on a parsed JSON array. -/
def Json.getIdx (j : Json) (i : Nat) : Option Json :=
  match j with
  | .arr xs => xs[i]?
  | _ => none

/-- The JSON value the payload denotes. -/
def slackJson (m : String) : Json :=
  Json.obj [("blocks", Json.arr [Json.obj
    [("text", Json.obj [("text", Json.str m), ("type", Json.str "mrkdwn")]),
     ("type", Json.str "section")]])]

/-- A left fold appending rendered context entries equals the starting string
followed by the joined rendered entries. -/
theorem foldl_formatted_eq (ctx : List Context) (acc : String) :
    ctx.foldl (fun acc c => acc ++ c.formatted) acc
      = acc ++ String.join (ctx.map Context.formatted) := by
  induction ctx generalizing acc with
  | nil => apply String.ext; simp [String.join_eq]
  | cons c cs ih =>
    show cs.foldl _ (acc ++ c.formatted) = _
    rw [ih]
    apply String.ext
    simp [String.join_eq, String.data_append]

/-- The rendered message is the header, the timestamp line, then the joined
context lines. -/
theorem into_message_eq (n : Notification) :
    n.into_message
      = "`Issue`: " ++ n.message ++ "\n>`Timestamp`: _" ++ n.timestamp ++ "_\n"
        ++ String.join (n.context.map Context.formatted) :=
  foldl_formatted_eq n.context _

/-- C2: `into_message` returns exactly the header line, the timestamp line,
and the rendered context entries concatenated in the order supplied, with no
extra separator; consequently reordering the input context list reorders the
output lines identically and changes nothing else. -/
theorem message_rendering_exact (m t : String) (ctx : List Context) :
    Notification.into_message ⟨m, t, ctx⟩
      = "`Issue`: " ++ m ++ "\n>`Timestamp`: _" ++ t ++ "_\n"
        ++ String.join (ctx.map Context.formatted) :=
  foldl_formatted_eq ctx _

/-- C4: `Context::formatted` returns exactly the quoted-label line with the
label and value passed through verbatim, unescaped and unaltered. -/
theorem context_entry_rendering (l v : String) :
    Context.formatted ⟨l, v⟩ = ">`" ++ l ++ "`: " ++ v ++ "\n" :=
  rfl

/-- Escaping the literal key strings of the payload changes nothing. -/
theorem escapeString_blocks : escapeString "blocks" = "blocks" := rfl

/-- Escaping `text` changes nothing. -/
theorem escapeString_text : escapeString "text" = "text" := rfl

/-- Escaping `type` changes nothing. -/
theorem escapeString_type : escapeString "type" = "type" := rfl

/-- Escaping `mrkdwn` changes nothing. -/
theorem escapeString_mrkdwn : escapeString "mrkdwn" = "mrkdwn" := rfl

/-- Escaping `section` changes nothing. -/
theorem escapeString_section : escapeString "section" = "section" := rfl

/-- The serialized payload is a fixed compact JSON skeleton — keys in
ascending order at each nesting level — around the escaped message text. -/
theorem into_slack_message_eq (n : Notification) :
    n.into_slack_message
      = "\x7b\"blocks\":[\x7b\"text\":\x7b\"text\":\"" ++ escapeString n.into_message
        ++ "\",\"type\":\"mrkdwn\"\x7d,\"type\":\"section\"\x7d]\x7d" := by
  apply String.ext
  simp only [Notification.into_slack_message, mkObj, List.foldl]
  simp +decide [objInsert, Json.render, renderArr, renderObjBody, escapeString_blocks,
    escapeString_text, escapeString_type, escapeString_mrkdwn, escapeString_section,
    String.data_append, List.append_assoc]

/-- Hex digits produced by the escaper are never a newline. -/
theorem hexDigitChar_ne_newline : ∀ d : Nat, d < 16 → hexDigitChar d ≠ '\n' := by
  decide

/-- The escape of a single character never contains a literal newline. -/
theorem newline_not_in_escapeChar (c : Char) : '\n' ∉ escapeChar c := by
  unfold escapeChar
  split_ifs with h1 h2 h3 h4 h5 h6 h7 h8
  · decide
  · decide
  · decide
  · decide
  · decide
  · decide
  · decide
  · intro hmem
    have hq : c.toNat % 16 < 16 := Nat.mod_lt _ (by omega)
    have hd : c.toNat / 16 < 16 := by omega
    simp only [List.mem_cons, List.not_mem_nil, or_false] at hmem
    rcases hmem with h | h | h | h | h | h <;>
      first
        | exact absurd h.symm (by decide)
        | exact absurd h.symm (hexDigitChar_ne_newline _ hd)
        | exact absurd h.symm (hexDigitChar_ne_newline _ hq)
  · intro hmem
    simp only [List.mem_cons, List.not_mem_nil, or_false] at hmem
    exact h5 hmem.symm

/-- The escaped form of a string never contains a literal newline. -/
theorem newline_not_in_escapeChars (cs : List Char) : '\n' ∉ escapeChars cs := by
  induction cs with
  | nil => simp [escapeChars]
  | cons c cs ih =>
    simp only [escapeChars, List.mem_append]
    rintro (h | h)
    · exact newline_not_in_escapeChar c h
    · exact ih h

/-- C1: the payload is exactly the compact JSON string with keys in
ascending order at each nesting level (`text` before `type` in both objects),
the rendered message JSON-escaped between the inner quotes, no whitespace
between tokens, and no literal newline anywhere in the payload. -/
theorem payload_exact_serialization (n : Notification) :
    n.into_slack_message
      = "\x7b\"blocks\":[\x7b\"text\":\x7b\"text\":\"" ++ escapeString n.into_message
        ++ "\",\"type\":\"mrkdwn\"\x7d,\"type\":\"section\"\x7d]\x7d"
    ∧ '\n' ∉ n.into_slack_message.data := by
  refine ⟨into_slack_message_eq n, ?_⟩
  rw [into_slack_message_eq]
  simp only [String.data_append, List.mem_append]
  rintro ((h | h) | h)
  · exact absurd h (by decide)
  · exact newline_not_in_escapeChars _ h
  · exact absurd h (by decide)

/-- The escaper's hexadecimal digits decode to their value. -/
theorem hexVal_hexDigitChar : ∀ d : Nat, d < 16 → hexVal (hexDigitChar d) = some d := by
  decide

/-- String-body parsing inverts the encoder's escaping: decoding an escaped
body up to the closing quote returns the original characters. -/
theorem parseStringBody_escape (cs rest : List Char) :
    parseStringBody (escapeChars cs ++ ('"' :: rest)) = some (cs, rest) := by
  induction cs with
  | nil =>
    show parseStringBody ('"' :: rest) = _
    rw [parseStringBody.eq_2]
    simp
  | cons c cs ih =>
    rw [escapeChars, List.append_assoc]
    unfold escapeChar
    split_ifs with h1 h2 h3 h4 h5 h6 h7 h8
    · subst h1
      simp only [List.cons_append, List.nil_append]
      rw [parseStringBody.eq_2]
      simp +decide [unescapeHead, ih, List.drop_succ_cons, List.drop_zero]
    · subst h2
      simp only [List.cons_append, List.nil_append]
      rw [parseStringBody.eq_2]
      simp +decide [unescapeHead, ih, List.drop_succ_cons, List.drop_zero]
    · subst h3
      simp only [List.cons_append, List.nil_append]
      rw [parseStringBody.eq_2]
      simp +decide [unescapeHead, ih, List.drop_succ_cons, List.drop_zero]
    · subst h4
      simp only [List.cons_append, List.nil_append]
      rw [parseStringBody.eq_2]
      simp +decide [unescapeHead, ih, List.drop_succ_cons, List.drop_zero]
    · subst h5
      simp only [List.cons_append, List.nil_append]
      rw [parseStringBody.eq_2]
      simp +decide [unescapeHead, ih, List.drop_succ_cons, List.drop_zero]
    · subst h6
      simp only [List.cons_append, List.nil_append]
      rw [parseStringBody.eq_2]
      simp +decide [unescapeHead, ih, List.drop_succ_cons, List.drop_zero]
    · subst h7
      simp only [List.cons_append, List.nil_append]
      rw [parseStringBody.eq_2]
      simp +decide [unescapeHead, ih, List.drop_succ_cons, List.drop_zero]
    · have hd : c.toNat / 16 < 16 := by omega
      have hq : c.toNat % 16 < 16 := Nat.mod_lt _ (by omega)
      have e1 : hexVal (hexDigitChar (c.toNat / 16)) = some (c.toNat / 16) :=
        hexVal_hexDigitChar _ hd
      have e2 : hexVal (hexDigitChar (c.toNat % 16)) = some (c.toNat % 16) :=
        hexVal_hexDigitChar _ hq
      have hc0 : Char.ofNat (4096 * 0 + 256 * 0 + 16 * (c.toNat / 16) + c.toNat % 16)
          = c := by
        rw [show 4096 * 0 + 256 * 0 + 16 * (c.toNat / 16) + c.toNat % 16 = c.toNat
          from by omega]
        exact Char.ofNat_toNat c
      have hc1 : Char.ofNat (16 * (c.toNat / 16) + c.toNat % 16) = c := by
        rw [show 16 * (c.toNat / 16) + c.toNat % 16 = c.toNat from by omega]
        exact Char.ofNat_toNat c
      have e0 : hexVal '0' = some 0 := by decide
      simp only [List.cons_append, List.nil_append]
      rw [parseStringBody.eq_2]
      simp +decide [unescapeHead, hex4, e0, e1, e2, hc0, hc1, ih, List.drop_succ_cons,
        List.drop_zero]
    · simp only [List.cons_append]
      rw [parseStringBody.eq_2]
      simp [h1, h2, h8, ih]

/-- Parsing succeeds unchanged when given at least as much fuel. -/
theorem parse_fuel_mono :
    ∀ f : Nat,
      (∀ f' cs r, f ≤ f' → parseValue f cs = some r → parseValue f' cs = some r)
      ∧ (∀ f' cs r, f ≤ f' → parseElems f cs = some r → parseElems f' cs = some r)
      ∧ (∀ f' cs r, f ≤ f' → parseMembers f cs = some r → parseMembers f' cs = some r) := by
  intro f
  induction f with
  | zero =>
    refine ⟨?_, ?_, ?_⟩ <;> intro f' cs r _ h <;>
      simp [parseValue.eq_1, parseElems.eq_1, parseMembers.eq_1] at h
  | succ g ih =>
    obtain ⟨ihV, ihE, ihM⟩ := ih
    refine ⟨?_, ?_, ?_⟩
    · intro f' cs r hle h
      obtain ⟨g', rfl⟩ : ∃ g2, f' = g2 + 1 := ⟨f' - 1, by omega⟩
      have hg : g ≤ g' := by omega
      rw [parseValue.eq_2] at h ⊢
      rcases hsk : skipWs cs with _ | ⟨c, rest⟩ <;> rw [hsk] at h
      · simp at h
      · simp only at h ⊢
        split_ifs at h ⊢ <;> try exact h
        · rcases hsk2 : skipWs rest with _ | ⟨c2, r2⟩ <;> rw [hsk2] at h <;>
            simp only at h ⊢
          · exact h
          · split_ifs at h ⊢ <;> try exact h
            rcases hm : parseMembers g (c2 :: r2) with _ | ⟨ms, r3⟩ <;> rw [hm] at h
            · simp only at h
              exact absurd h (by simp)
            · rw [ihM g' (c2 :: r2) (ms, r3) hg hm]
              simp only at h ⊢
              exact h
        · rcases hsk2 : skipWs rest with _ | ⟨c2, r2⟩ <;> rw [hsk2] at h <;>
            simp only at h ⊢
          · exact h
          · split_ifs at h ⊢ <;> try exact h
            rcases he : parseElems g (c2 :: r2) with _ | ⟨vs, r3⟩ <;> rw [he] at h
            · simp only at h
              exact absurd h (by simp)
            · rw [ihE g' (c2 :: r2) (vs, r3) hg he]
              simp only at h ⊢
              exact h
    · intro f' cs r hle h
      obtain ⟨g', rfl⟩ : ∃ g2, f' = g2 + 1 := ⟨f' - 1, by omega⟩
      have hg : g ≤ g' := by omega
      rw [parseElems.eq_2] at h ⊢
      rcases hv : parseValue g cs with _ | ⟨v, r1⟩ <;> rw [hv] at h
      · simp only at h
        exact absurd h (by simp)
      · rw [ihV g' cs (v, r1) hg hv]
        simp only at h ⊢
        rcases hsk : skipWs r1 with _ | ⟨c, r2⟩ <;> rw [hsk] at h <;> simp only at h ⊢
        · exact h
        · split_ifs at h ⊢ <;> try exact h
          rcases he : parseElems g r2 with _ | ⟨vs, r3⟩ <;> rw [he] at h
          · simp only at h
            exact absurd h (by simp)
          · rw [ihE g' r2 (vs, r3) hg he]
            simp only at h ⊢
            exact h
    · intro f' cs r hle h
      obtain ⟨g', rfl⟩ : ∃ g2, f' = g2 + 1 := ⟨f' - 1, by omega⟩
      have hg : g ≤ g' := by omega
      rw [parseMembers.eq_2] at h ⊢
      rcases hsk : skipWs cs with _ | ⟨c, rest⟩ <;> rw [hsk] at h <;> simp only at h ⊢
      · exact h
      · split_ifs at h ⊢ <;> try exact h
        rcases hps : parseStringBody rest with _ | ⟨k, r1⟩ <;> rw [hps] at h <;>
          simp only at h ⊢
        · exact h
        · rcases hsk2 : skipWs r1 with _ | ⟨c2, r2⟩ <;> rw [hsk2] at h <;>
            simp only at h ⊢
          · exact h
          · split_ifs at h ⊢ <;> try exact h
            rcases hv : parseValue g r2 with _ | ⟨v, r3⟩ <;> rw [hv] at h
            · simp only at h
              exact absurd h (by simp)
            · rw [ihV g' r2 (v, r3) hg hv]
              simp only at h ⊢
              rcases hsk3 : skipWs r3 with _ | ⟨c3, r4⟩ <;> rw [hsk3] at h <;>
                simp only at h ⊢
              · exact h
              · split_ifs at h ⊢ <;> try exact h
                rcases hm : parseMembers g r4 with _ | ⟨ms, r5⟩ <;> rw [hm] at h
                · simp only at h
                  exact absurd h (by simp)
                · rw [ihM g' r4 (ms, r5) hg hm]
                  simp only at h ⊢
                  exact h

/-- Stepping the parser through the payload skeleton with small fuel. -/
theorem parseValue_slack (m : String) :
    parseValue 15 ('\x7b' :: '"' :: 'b' :: 'l' :: 'o' :: 'c' :: 'k' :: 's' :: '"' :: ':'
        :: '[' :: '\x7b' :: '"' :: 't' :: 'e' :: 'x' :: 't' :: '"' :: ':' :: '\x7b'
        :: '"' :: 't' :: 'e' :: 'x' :: 't' :: '"' :: ':' :: '"'
        :: (escapeChars m.data ++ ('"' :: ',' :: '"' :: 't' :: 'y' :: 'p' :: 'e' :: '"'
            :: ':' :: '"' :: 'm' :: 'r' :: 'k' :: 'd' :: 'w' :: 'n' :: '"' :: '\x7d'
            :: ',' :: '"' :: 't' :: 'y' :: 'p' :: 'e' :: '"' :: ':' :: '"' :: 's' :: 'e'
            :: 'c' :: 't' :: 'i' :: 'o' :: 'n' :: '"' :: '\x7d' :: ']' :: '\x7d' :: [])))
      = some (slackJson m, []) := by
  simp +decide [parseValue.eq_2, parseElems.eq_2, parseMembers.eq_2, skipWs, isWs,
    parseStringBody_escape, parseStringBody.eq_2, unescapeHead, slackJson]

/-- The payload's character data, exposed for the parser. -/
theorem payload_data_eq (n : Notification) :
    n.into_slack_message.data
      = '\x7b' :: '"' :: 'b' :: 'l' :: 'o' :: 'c' :: 'k' :: 's' :: '"' :: ':'
        :: '[' :: '\x7b' :: '"' :: 't' :: 'e' :: 'x' :: 't' :: '"' :: ':' :: '\x7b'
        :: '"' :: 't' :: 'e' :: 'x' :: 't' :: '"' :: ':' :: '"'
        :: (escapeChars n.into_message.data ++ ('"' :: ',' :: '"' :: 't' :: 'y' :: 'p'
            :: 'e' :: '"' :: ':' :: '"' :: 'm' :: 'r' :: 'k' :: 'd' :: 'w' :: 'n' :: '"'
            :: '\x7d' :: ',' :: '"' :: 't' :: 'y' :: 'p' :: 'e' :: '"' :: ':' :: '"'
            :: 's' :: 'e' :: 'c' :: 't' :: 'i' :: 'o' :: 'n' :: '"' :: '\x7d' :: ']'
            :: '\x7d' :: [])) := by
  rw [into_slack_message_eq]
  simp [String.data_append, escapeString]

/-- The payload parses to the expected JSON value. -/
theorem parse_slack (n : Notification) :
    Json.parse n.into_slack_message = some (slackJson n.into_message) := by
  have h15 : parseValue 15 n.into_slack_message.data
      = some (slackJson n.into_message, []) := by
    rw [payload_data_eq]
    exact parseValue_slack n.into_message
  have hle : 15 ≤ n.into_slack_message.length + 1 := by
    rw [into_slack_message_eq]
    rw [String.length_append, String.length_append]
    have h1 : ("\x7b\"blocks\":[\x7b\"text\":\x7b\"text\":\"" : String).length = 28 := rfl
    omega
  have hbig := (parse_fuel_mono 15).1 (n.into_slack_message.length + 1)
    n.into_slack_message.data (slackJson n.into_message, []) hle h15
  unfold Json.parse
  rw [hbig]
  simp [skipWs]

/-- C3: the payload parses as valid JSON and decoding its
`blocks[0].text.text` field returns, byte for byte, the rendered message. -/
theorem payload_round_trip (n : Notification) :
    ∃ j : Json, Json.parse n.into_slack_message = some j
      ∧ (((j.getField "blocks").bind fun b => b.getIdx 0).bind
            fun e => (e.getField "text").bind fun t => t.getField "text")
          = some (Json.str n.into_message) := by
  refine ⟨slackJson n.into_message, parse_slack n, ?_⟩
  simp +decide [slackJson, Json.getField, Json.getIdx, lookupField]

/-- C7: every invocation of `send` issues exactly one request: a POST to the
supplied destination whose only header is `Content-type: application/json`
and whose body is byte-identical to the rendered payload. -/
theorem send_single_request (n : Notification) (dest : String)
    (transport : Request → Except TransportError Response) :
    (n.send dest transport).2
      = [⟨"POST", dest, [("Content-type", "application/json")], n.into_slack_message⟩] := by
  cases h :
      transport ⟨"POST", dest, [("Content-type", "application/json")], n.into_slack_message⟩ <;>
    simp [Notification.send, h]

/-- C6: `send` succeeds exactly when the transport delivers any response
(the status code is never inspected), and when the transport fails `send`
returns that very transport error as its sole failure mode. -/
theorem send_success_iff_transport (n : Notification) (dest : String)
    (transport : Request → Except TransportError Response) :
    ((n.send dest transport).1 = .ok () ↔
      ∃ resp, transport
          ⟨"POST", dest, [("Content-type", "application/json")], n.into_slack_message⟩
        = .ok resp)
    ∧ ∀ e : TransportError, ((n.send dest transport).1 = .error e ↔
        transport ⟨"POST", dest, [("Content-type", "application/json")], n.into_slack_message⟩
          = .error e) := by
  cases h :
      transport ⟨"POST", dest, [("Content-type", "application/json")], n.into_slack_message⟩ <;>
    simp [Notification.send, h]

/-- Witness for C6 at a concrete notification and transport oracle. -/
theorem send_success_iff_transport_witness :
    (Notification.send ⟨"m", "t", []⟩ "https://example.invalid/hook"
        (fun _ => .ok ⟨500⟩)).1 = .ok () :=
  (send_success_iff_transport ⟨"m", "t", []⟩ "https://example.invalid/hook"
      (fun _ => .ok ⟨500⟩)).1.mpr ⟨⟨500⟩, rfl⟩

/-- C8: the formatting operations are deterministic functions of the field
values: notifications and entries built from identical fields render to
byte-identical strings. -/
theorem formatting_deterministic (c1 c2 : Context) (n1 n2 : Notification)
    (hl : c1.label = c2.label) (hv : c1.value = c2.value)
    (hm : n1.message = n2.message) (ht : n1.timestamp = n2.timestamp)
    (hc : n1.context = n2.context) :
    c1.formatted = c2.formatted ∧ n1.into_message = n2.into_message
      ∧ n1.into_slack_message = n2.into_slack_message := by
  cases c1; cases c2; cases n1; cases n2
  simp_all

/-- Witness for C8 at concrete equal-field values. -/
theorem formatting_deterministic_witness :
    Context.formatted ⟨"a", "b"⟩ = Context.formatted ⟨"a", "b"⟩
    ∧ Notification.into_message ⟨"m", "t", [⟨"a", "b"⟩]⟩
        = Notification.into_message ⟨"m", "t", [⟨"a", "b"⟩]⟩
    ∧ Notification.into_slack_message ⟨"m", "t", [⟨"a", "b"⟩]⟩
        = Notification.into_slack_message ⟨"m", "t", [⟨"a", "b"⟩]⟩ :=
  formatting_deterministic ⟨"a", "b"⟩ ⟨"a", "b"⟩ ⟨"m", "t", [⟨"a", "b"⟩]⟩
    ⟨"m", "t", [⟨"a", "b"⟩]⟩ rfl rfl rfl rfl rfl

/-- The rendered line of a context entry ends with a newline. -/
theorem formatted_getLast (c : Context) :
    c.formatted.data.getLast? = some '\n' := by
  show ((">`" ++ c.label ++ "`: " ++ c.value ++ "\n")).data.getLast? = some '\n'
  rw [String.data_append]
  have hne : ("\n" : String).data ≠ [] := by decide
  rw [List.getLast?_append_of_ne_nil _ hne]
  decide

/-- Appending rendered context entries preserves a trailing newline. -/
theorem foldl_formatted_getLast (ctx : List Context) (acc : String)
    (hacc : acc.data.getLast? = some '\n') :
    (ctx.foldl (fun a c => a ++ c.formatted) acc).data.getLast? = some '\n' := by
  induction ctx generalizing acc with
  | nil => exact hacc
  | cons c cs ih =>
    apply ih
    rw [String.data_append]
    have hne : c.formatted.data ≠ [] := by
      intro h
      have hlast := formatted_getLast c
      rw [h] at hlast
      simp at hlast
    rw [List.getLast?_append_of_ne_nil _ hne]
    exact formatted_getLast c

/-- The rendered message always ends with a newline. -/
theorem into_message_getLast (n : Notification) :
    n.into_message.data.getLast? = some '\n' := by
  refine foldl_formatted_getLast n.context _ ?_
  rw [String.data_append]
  have hne : ("_\n" : String).data ≠ [] := by decide
  rw [List.getLast?_append_of_ne_nil _ hne]
  decide

/-- A rendered entry whose label and value are newline-free contains exactly
one newline. -/
theorem formatted_count (c : Context) (hl : '\n' ∉ c.label.data)
    (hv : '\n' ∉ c.value.data) :
    c.formatted.data.count '\n' = 1 := by
  show ((">`" ++ c.label ++ "`: " ++ c.value ++ "\n")).data.count '\n' = 1
  simp only [String.data_append, List.count_append]
  rw [List.count_eq_zero.mpr hl, List.count_eq_zero.mpr hv]
  decide

/-- Folding newline-free context entries adds one newline per entry. -/
theorem foldl_formatted_count (ctx : List Context) (acc : String)
    (hc : ∀ c ∈ ctx, '\n' ∉ c.label.data ∧ '\n' ∉ c.value.data) :
    (ctx.foldl (fun a c => a ++ c.formatted) acc).data.count '\n'
      = acc.data.count '\n' + ctx.length := by
  induction ctx generalizing acc with
  | nil => simp
  | cons c cs ih =>
    show (cs.foldl _ (acc ++ c.formatted)).data.count '\n' = _
    rw [ih _ (fun d hd => hc d (List.mem_cons_of_mem c hd))]
    rw [String.data_append, List.count_append]
    rw [formatted_count c (hc c (List.mem_cons_self c cs)).1
      (hc c (List.mem_cons_self c cs)).2]
    simp only [List.length_cons]
    omega

/-- C5 counterexample: a message embedding a newline makes the output have
three lines although the context list is empty, so the claimed `2 + k` line
count fails on that notification. -/
theorem line_count_counterexample :
    ¬ ((Notification.into_message ⟨"a\nb", "t", []⟩).data.count '\n'
          = 2 + ([] : List Context).length
        ∧ (Notification.into_message ⟨"a\nb", "t", []⟩).data.getLast? = some '\n') := by
  decide

/-- C5 (amended): when the message, the timestamp and every context label and
value contain no newline, the rendered message has exactly `2 + k` lines —
`2 + k` newline characters — and ends with a newline. -/
theorem line_count_amended (n : Notification)
    (hm : '\n' ∉ n.message.data) (ht : '\n' ∉ n.timestamp.data)
    (hc : ∀ c ∈ n.context, '\n' ∉ c.label.data ∧ '\n' ∉ c.value.data) :
    n.into_message.data.count '\n' = 2 + n.context.length
    ∧ n.into_message.data.getLast? = some '\n' := by
  refine ⟨?_, into_message_getLast n⟩
  show (n.context.foldl (fun a c => a ++ c.formatted)
    ("`Issue`: " ++ n.message ++ "\n>`Timestamp`: _" ++ n.timestamp ++ "_\n")).data.count '\n'
      = 2 + n.context.length
  rw [foldl_formatted_count n.context _ hc]
  have hh : ("`Issue`: " ++ n.message ++ "\n>`Timestamp`: _" ++ n.timestamp
      ++ "_\n").data.count '\n' = 2 := by
    simp only [String.data_append, List.count_append]
    rw [List.count_eq_zero.mpr hm, List.count_eq_zero.mpr ht]
    decide
  rw [hh]

/-- Witness for C5 (amended) at a concrete newline-free notification. -/
theorem line_count_amended_witness :
    (Notification.into_message ⟨"msg", "ts", [⟨"l", "v"⟩]⟩).data.count '\n'
        = 2 + ([⟨"l", "v"⟩] : List Context).length
    ∧ (Notification.into_message ⟨"msg", "ts", [⟨"l", "v"⟩]⟩).data.getLast? = some '\n' :=
  line_count_amended ⟨"msg", "ts", [⟨"l", "v"⟩]⟩ (by decide) (by decide) (by decide)

/-- The length of a rendered context entry. -/
theorem formatted_length (c : Context) :
    c.formatted.length = c.label.length + c.value.length + 6 := by
  show ((">`" ++ c.label ++ "`: " ++ c.value ++ "\n")).length = _
  rw [String.length_append, String.length_append, String.length_append,
    String.length_append]
  have h1 : (">`" : String).length = 2 := rfl
  have h2 : ("`: " : String).length = 3 := rfl
  have h3 : ("\n" : String).length = 1 := rfl
  omega

/-- Folding rendered entries adds their lengths. -/
theorem foldl_formatted_length (ctx : List Context) (acc : String) :
    (ctx.foldl (fun a c => a ++ c.formatted) acc).length
      = acc.length + (ctx.map fun c => c.formatted.length).sum := by
  induction ctx generalizing acc with
  | nil => simp
  | cons c cs ih =>
    show (cs.foldl _ (acc ++ c.formatted)).length = _
    rw [ih, String.length_append]
    simp only [List.map_cons, List.sum_cons]
    omega

/-- C9: the formatting operations are total: on every well-typed input they
produce a string whose size is fully determined by the field sizes, and the
payload is always a nonempty string — no error or panic branch exists. -/
theorem formatting_total (c : Context) (n : Notification) :
    c.formatted.length = c.label.length + c.value.length + 6
    ∧ n.into_message.length
        = 27 + n.message.length + n.timestamp.length
          + (n.context.map fun e => e.formatted.length).sum
    ∧ 0 < n.into_slack_message.length := by
  refine ⟨formatted_length c, ?_, ?_⟩
  · show (n.context.foldl (fun a c => a ++ c.formatted)
      ("`Issue`: " ++ n.message ++ "\n>`Timestamp`: _" ++ n.timestamp ++ "_\n")).length = _
    rw [foldl_formatted_length]
    rw [String.length_append, String.length_append, String.length_append,
      String.length_append]
    have h1 : ("`Issue`: " : String).length = 9 := rfl
    have h2 : ("\n>`Timestamp`: _" : String).length = 16 := rfl
    have h3 : ("_\n" : String).length = 2 := rfl
    omega
  · rw [into_slack_message_eq]
    rw [String.length_append, String.length_append]
    have h1 : ("\x7b\"blocks\":[\x7b\"text\":\x7b\"text\":\"" : String).length = 28 := rfl
    omega

/-- C10: message rendering is not injective: a notification with an empty
context list whose message embeds a newline followed by the text of a
rendered line collides with a distinct notification carrying that line as a
context entry, so the structured value cannot be recovered from the text. -/
theorem into_message_not_injective :
    (⟨"m\n>`Timestamp`: _t_", "t", []⟩ : Notification)
        ≠ ⟨"m", "t", [⟨"Timestamp", "_t_"⟩]⟩
    ∧ Notification.into_message ⟨"m\n>`Timestamp`: _t_", "t", []⟩
        = Notification.into_message ⟨"m", "t", [⟨"Timestamp", "_t_"⟩]⟩ := by
  decide

end DevNotify
